import Mathlib

/-
Verification development for the static-analysis engine of this repository.

The definitions below are shallow embeddings of the Rust sources:
  src/ast_analyzer.rs        (tree-sitter based per-function metrics)
  src/analyzer.rs            (line-based fallback complexity)
  src/dependency_analyzer.rs (dependency graph, cycles, coupling)
  src/analyzers/mod.rs       (file discovery and aggregation)

Conventions of the embedding:
  - tree-sitter syntax trees are modelled as rose trees of nodes carrying the
    node kind string, the source text covered by the node, and the child list
    in document order.  Tree-sitter cursor traversal (goto_first_child /
    goto_next_sibling) visits anonymous token nodes as well, so token nodes
    such as the keyword "else" (whose kind string is the token text itself)
    are part of the child lists.
  - Rust u32 counters are modelled as Nat (the sources only ever add small
    numbers, no overflow paths are relevant to the claims), f64 metric values
    as Rat (the claims only concern the exact quotient that is computed).
  - HashMap / HashSet values are modelled as association lists / lists with
    the exact entry-update behaviour of the source (or_insert + increment,
    insert, remove); where the source iterates a HashMap the claims settled
    here do not depend on iteration order.
  - the recursive DFS of dependency_analyzer.rs is made total by a fuel
    parameter; the wrapper supplies fuel that is larger than the number of
    calls any DFS on the given graph can make, so the fueled function agrees
    with the source on every input it is applied to.
-/

namespace CodeAnalysis

/-! ## Syntax tree model

A tree-sitter syntax tree as the Rust code walks it: every traversal in
ast_analyzer.rs uses a TreeCursor (goto_first_child / goto_next_sibling /
goto_parent), so a node is modelled in first-child / next-sibling form,
carrying the node kind string and the source text covered by the node.
Anonymous token nodes (keywords, punctuation) are visited by a TreeCursor
like any node; their kind string is the token text itself. -/

inductive TS where
  | nil
  | node (kind : String) (text : String) (firstChild : TS) (nextSibling : TS)
deriving DecidableEq

/-- Replace the next-sibling link of a node (identity chain on nil). -/
def withSib : TS → TS → TS
  | .nil, rest => rest
  | .node k t fc _, rest => .node k t fc rest

/-- Chain a list of (sibling-free) nodes into a sibling chain. -/
def sib : List TS → TS
  | [] => .nil
  | x :: xs => withSib x (sib xs)

/-- Node with the given children, no next sibling. -/
def mkNode (k t : String) (cs : List TS) : TS := .node k t (sib cs) .nil

/-- Anonymous token node: its kind string is the token text itself. -/
def tok (k : String) : TS := mkNode k k []

/-- Detach a node from its next siblings. -/
def dropSib : TS → TS
  | .nil => .nil
  | .node k t fc _ => .node k t fc .nil

/-- Append one node at the end of a sibling chain. -/
def appendSib : TS → TS → TS
  | .nil, n => n
  | .node k t fc ns, n => .node k t fc (appendSib ns n)

/-! ## ast_analyzer.rs: calculate_cyclomatic_complexity

The Rust function starts a mutable counter at 1 and runs `traverse_node`,
which bumps the counter on a match over the node kind and then loops over
the children with the cursor (first child, then next siblings).  In
first-child / next-sibling form that recursion is: bump for this node,
recurse into the first child, recurse into the next sibling. -/

def traverse_node : TS → Nat → Nat
  | .nil, complexity => complexity
  | .node k _ fc ns, complexity =>
    traverse_node ns
      (traverse_node fc
        (match k with
         | "if_statement" | "if_expression" => complexity + 1
         | "else_clause" | "else" => complexity + 1
         | "while_statement" | "while_expression" => complexity + 1
         | "for_statement" | "for_expression" | "for_in_statement" => complexity + 1
         | "switch_statement" | "match_expression" => complexity + 1
         | "case_clause" | "match_arm" => complexity + 1
         | "catch_clause" | "try_statement" => complexity + 1
         | "conditional_expression" => complexity + 1
         | "loop_expression" => complexity + 1
         | "binary_expression" => complexity
         | _ => complexity))

/-- Complexity of one function node: the traversal covers the node itself
and its descendants (the start node's own next siblings are not visited by
the source, hence the dropSib). -/
def calculate_cyclomatic_complexity (node : TS) : Nat :=
  traverse_node (dropSib node) 1

/-- The node kinds on which `traverse_node` increments its counter
(the `binary_expression` arm of the source is an empty no-op). -/
def decision_kinds : List String :=
  ["if_statement", "if_expression", "else_clause", "else",
   "while_statement", "while_expression",
   "for_statement", "for_expression", "for_in_statement",
   "switch_statement", "match_expression",
   "case_clause", "match_arm",
   "catch_clause", "try_statement",
   "conditional_expression", "loop_expression"]

/-- No node of the tree (children and siblings alike) has a kind on which
`traverse_node` bumps the counter: the tree shows zero decision or loop
constructs. -/
def no_decision : TS → Bool
  | .nil => true
  | .node k _ fc ns =>
    !(decision_kinds.contains k) && no_decision fc && no_decision ns

/-! ## ast_analyzer.rs: calculate_nesting_depth -/

def traverse_for_depth : TS → Nat → Nat → Nat
  | .nil, _, max_depth => max_depth
  | .node k _ fc ns, current_depth, max_depth =>
    let increases :=
      match k with
      | "if_statement" | "if_expression"
      | "while_statement" | "while_expression"
      | "for_statement" | "for_expression" | "for_in_statement"
      | "switch_statement" | "match_expression"
      | "try_statement" | "catch_clause"
      | "loop_expression"
      | "block" | "compound_statement" => true
      | _ => false
    let nested_depth := if increases then current_depth + 1 else current_depth
    let max_depth := if increases then Nat.max max_depth nested_depth else max_depth
    traverse_for_depth ns current_depth
      (traverse_for_depth fc nested_depth max_depth)

def calculate_nesting_depth (node : TS) : Nat :=
  traverse_for_depth (dropSib node) 0 0

/-! ## ast_analyzer.rs: extract_function_name

Walks the direct children of the function node and returns the text of the
first child whose kind is identifier / property_identifier. -/

def first_ident_child : TS → Option String
  | .nil => none
  | .node k t _ ns =>
    if k = "identifier" ∨ k = "property_identifier" then some t
    else first_ident_child ns

def extract_function_name : TS → Option String
  | .nil => none
  | .node _ _ fc _ => first_ident_child fc

/-! ## String helpers (Rust str::starts_with and str::contains on substrings) -/

def charsPfx : List Char → List Char → Bool
  | [], _ => true
  | _ :: _, [] => false
  | p :: ps, s :: ss => p == s && charsPfx ps ss

def charsSub : List Char → List Char → Bool
  | p, [] => charsPfx p []
  | p, c :: cs => charsPfx p (c :: cs) || charsSub p cs

/-- Rust `s.starts_with(pat)`. -/
def strStarts (s pat : String) : Bool := charsPfx pat.data s.data

/-- Rust `s.contains(pat)` (substring containment). -/
def strContainsSub (s pat : String) : Bool := charsSub pat.data s.data

/-! ## ast_analyzer.rs: is_recursive_function

`check_for_recursive_call` consults the kind of the parent node, which the
Rust code obtains via `node.parent()`; in this embedding the parent kind is
threaded through the recursion (`none` at the traversal root).  A node's
first child has the node as parent; a node's next sibling shares the node's
own parent. -/

def check_for_recursive_call : Option String → TS → String → Bool
  | _, .nil, _ => false
  | parent_kind, .node k txt fc ns, function_name =>
    let call_hit :=
      (k == "call_expression" || k == "call") &&
      (strStarts txt function_name || strContainsSub txt (function_name ++ "("))
    let ident_hit :=
      k == "identifier" && txt == function_name &&
      (match parent_kind with
       | some p => p == "call_expression" || p == "call"
       | none => false)
    call_hit || ident_hit ||
    check_for_recursive_call (some k) fc function_name ||
    check_for_recursive_call parent_kind ns function_name

def is_recursive_function (node : TS) (name : String) : Bool :=
  if name == "" || name == "anonymous" then false
  else check_for_recursive_call none (dropSib node) name

/-- Rust `s.ends_with(pat)`. -/
def strEnds (s pat : String) : Bool :=
  charsPfx pat.data.reverse s.data.reverse

/-- Split a character list at every occurrence of `sep` (the separator is
dropped); always returns at least one (possibly empty) segment, like
`str::split`. -/
def splitOnChar (sep : Char) : List Char → List (List Char)
  | [] => [[]]
  | c :: cs =>
    if c == sep then [] :: splitOnChar sep cs
    else
      match splitOnChar sep cs with
      | h :: t => (c :: h) :: t
      | [] => [[c]]

def isSimpleWhitespace (c : Char) : Bool :=
  c == ' ' || c == '\t' || c == '\r' || c == '\n'

/-- Rust `str::trim` (ASCII whitespace suffices for the sources' inputs). -/
def strTrim (s : String) : String :=
  String.mk
    ((((s.data.dropWhile isSimpleWhitespace).reverse.dropWhile
        isSimpleWhitespace).reverse))

/-! ## analyzer.rs: calculate_basic_complexity (line-based fallback) -/

def chopCR (l : List Char) : List Char :=
  if l.getLast? == some '\r' then l.dropLast else l

/-- Rust `str::lines()`: split on newline, drop a trailing empty segment,
strip a trailing carriage return from each line. -/
def rustLines (s : String) : List String :=
  let parts := splitOnChar '\n' s.data
  let parts :=
    match parts.getLast? with
    | some [] => parts.dropLast
    | _ => parts
  parts.map (fun l => String.mk (chopCR l))

def line_complexity_points (line : String) : Nat :=
  let l := strTrim line
  (if strContainsSub l "if " || strContainsSub l "else if" then 1 else 0) +
  (if strContainsSub l "while " || strContainsSub l "for " then 1 else 0) +
  (if strContainsSub l "match " || strContainsSub l "switch " then 1 else 0) +
  (if strContainsSub l "catch " || strContainsSub l "except " then 1 else 0) +
  (if strContainsSub l "case " || strContainsSub l "when " then 1 else 0)

def calculate_basic_complexity (content : String) : Nat :=
  (rustLines content).foldl (fun c l => c + line_complexity_points l) 1

/-! ## dependency_analyzer.rs and core/types.rs: data model -/

inductive Language where
  | Rust
  | JavaScript
  | TypeScript
  | Python
  | Go
  | Unknown
deriving DecidableEq

structure ImportInfo where
  module_path : String
  imported_names : List String
  is_default : Bool
  line : Nat
deriving DecidableEq

structure ExportInfo where
  name : String
  is_default : Bool
  line : Nat
deriving DecidableEq

structure ModuleInfo where
  file_path : String
  module_name : String
  language : Language
  imports : List ImportInfo
  exports : List ExportInfo
  external_dependencies : List String
deriving DecidableEq

structure DependencyNode where
  id : String
  file_path : String
  module_name : String
  exports : List String
deriving DecidableEq

inductive ImportType where
  | Named
  | Default
  | Namespace
  | Side
deriving DecidableEq

/-- Because `from` and `to` are Lean keywords, the source fields `from` and
`to` are rendered `from_` and `to_`. -/
structure DependencyEdge where
  from_ : String
  to_ : String
  import_type : ImportType
  imported_symbols : List String
deriving DecidableEq

structure DependencyGraph where
  nodes : List DependencyNode
  edges : List DependencyEdge
deriving DecidableEq

inductive CycleSeverity where
  | Low
  | Medium
  | High
deriving DecidableEq

structure CircularDependency where
  cycle : List String
  severity : CycleSeverity
deriving DecidableEq

structure ModuleCoupling where
  module_name : String
  afferent_coupling : Nat
  efferent_coupling : Nat
  instability : Rat
  abstractness : Rat
deriving DecidableEq

/-! ## dependency_analyzer.rs: import classification and resolution -/

def is_external_dependency (import_path : String) (language : Language) : Bool :=
  match language with
  | .JavaScript | .TypeScript =>
    !(strStarts import_path "./") && !(strStarts import_path "../")
  | .Rust =>
    !(strStarts import_path "crate::") && !(strStarts import_path "super::") &&
    !(strStarts import_path "self::")
  | .Python => !(strStarts import_path ".")
  | _ => true

def resolve_import_to_module (import_path : String) (language : Language) :
    Option String :=
  if is_external_dependency import_path language then none
  else some import_path

/-! ## dependency_analyzer.rs: build_dependency_graph

The source iterates the module registry (module name to ModuleInfo); the
registry is modelled as an association list in iteration order. -/

def edges_for_module : String → Language → List ImportInfo → List DependencyEdge
  | _, _, [] => []
  | module_name, lang, imp :: rest =>
    match resolve_import_to_module imp.module_path lang with
    | some target_module =>
      { from_ := module_name
        to_ := target_module
        import_type :=
          if imp.is_default then ImportType.Default
          else if imp.imported_names = [] then ImportType.Namespace
          else ImportType.Named
        imported_symbols := imp.imported_names } ::
      edges_for_module module_name lang rest
    | none => edges_for_module module_name lang rest

def registry_nodes : List (String × ModuleInfo) → List DependencyNode
  | [] => []
  | (module_name, mi) :: rest =>
    { id := module_name
      file_path := mi.file_path
      module_name := module_name
      exports := mi.exports.map (fun e => e.name) } :: registry_nodes rest

def registry_edges : List (String × ModuleInfo) → List DependencyEdge
  | [] => []
  | (module_name, mi) :: rest =>
    edges_for_module module_name mi.language mi.imports ++ registry_edges rest

def build_dependency_graph (registry : List (String × ModuleInfo)) :
    DependencyGraph :=
  { nodes := registry_nodes registry, edges := registry_edges registry }

/-! ## dependency_analyzer.rs: detect_circular_dependencies -/

/-- HashSet insert on the model of a string set. -/
def setInsert (l : List String) (x : String) : List String :=
  if l.contains x then l else l ++ [x]

/-- HashSet remove. -/
def setRemove (l : List String) (x : String) : List String :=
  l.filter (fun y => !(y == x))

structure DfsState where
  visited : List String
  rec_stack : List String
  path_stack : List String
deriving DecidableEq

/-- Model of `path_stack.iter().position(|x| x == neighbor)` followed by slicing
`path_stack[cycle_start..]`. -/
def sliceFrom : List String → String → Option (List String)
  | [], _ => none
  | y :: ys, x => if y == x then some (y :: ys) else sliceFrom ys x

def adjacency_add (m : List (String × List String)) (k v : String) :
    List (String × List String) :=
  match m with
  | [] => [(k, [v])]
  | (k', vs) :: rest =>
    if k' == k then (k', vs ++ [v]) :: rest
    else (k', vs) :: adjacency_add rest k v

def build_adjacency : List DependencyEdge → List (String × List String) →
    List (String × List String)
  | [], m => m
  | e :: rest, m => build_adjacency rest (adjacency_add m e.from_ e.to_)

def adjacency_get (m : List (String × List String)) (k : String) :
    Option (List String) :=
  match m with
  | [] => none
  | (k', vs) :: rest => if k' == k then some vs else adjacency_get rest k

/-- Call shape of the recursive DFS: entering a node, or iterating the
remaining neighbors of the node currently being expanded. -/
inductive DfsCall where
  | node (id : String)
  | neighbors (ns : List String)
deriving DecidableEq

/-- Fueled embedding of `dfs_cycle_detection`.  Every recursive call consumes
one unit of fuel; with fuel exceeding the number of calls the source DFS can
make on the given adjacency, this function computes exactly the source's
result and final mutable state (visited / rec_stack / path_stack).  Note that
on a found cycle the source returns early and does not pop rec_stack or
path_stack; the embedding mirrors that. -/
def dfs_cycle_detection : Nat → DfsCall → List (String × List String) →
    DfsState → Option (List String) × DfsState
  | 0, _, _, st => (none, st)
  | fuel + 1, DfsCall.node id, adjacency, st =>
    let st := { st with
      visited := setInsert st.visited id
      rec_stack := setInsert st.rec_stack id
      path_stack := st.path_stack ++ [id] }
    let ns :=
      match adjacency_get adjacency id with
      | some ns => ns
      | none => []
    (match dfs_cycle_detection fuel (DfsCall.neighbors ns) adjacency st with
     | (some cycle, st1) => (some cycle, st1)
     | (none, st1) =>
       (none, { st1 with
         rec_stack := setRemove st1.rec_stack id
         path_stack := st1.path_stack.dropLast }))
  | _ + 1, DfsCall.neighbors [], _, st => (none, st)
  | fuel + 1, DfsCall.neighbors (n :: ns), adjacency, st =>
    if !(st.visited.contains n) then
      match dfs_cycle_detection fuel (DfsCall.node n) adjacency st with
      | (some cycle, st1) => (some cycle, st1)
      | (none, st1) => dfs_cycle_detection fuel (DfsCall.neighbors ns) adjacency st1
    else if st.rec_stack.contains n then
      match sliceFrom st.path_stack n with
      | some cyc => (some (cyc ++ [n]), st)
      | none => dfs_cycle_detection fuel (DfsCall.neighbors ns) adjacency st
    else
      dfs_cycle_detection fuel (DfsCall.neighbors ns) adjacency st

/-- Severity assignment of detect_circular_dependencies:
`match cycle.len() { 1..=2 => Low, 3..=4 => Medium, _ => High }`. -/
def cycle_severity (len : Nat) : CycleSeverity :=
  match len with
  | 1 | 2 => CycleSeverity.Low
  | 3 | 4 => CycleSeverity.Medium
  | _ => CycleSeverity.High

/-- Fuel that strictly dominates the number of DFS calls possible on `g`:
every call either enters an unvisited id (at most nodes + edges many ids
occur) or steps along one neighbor list entry (at most edges many overall),
per root, and there are at most nodes many roots. -/
def dfs_fuel (g : DependencyGraph) : Nat :=
  (g.nodes.length + g.edges.length + 2) * (g.nodes.length + g.edges.length + 2)

def detect_loop : List DependencyNode → List (String × List String) →
    DfsState → List CircularDependency → Nat → List CircularDependency
  | [], _, _, acc, _ => acc
  | node :: rest, adjacency, st, acc, fuel =>
    if st.visited.contains node.id then detect_loop rest adjacency st acc fuel
    else
      match dfs_cycle_detection fuel (DfsCall.node node.id) adjacency st with
      | (some cycle, st1) =>
        detect_loop rest adjacency st1
          (acc ++ [{ cycle := cycle, severity := cycle_severity cycle.length }]) fuel
      | (none, st1) => detect_loop rest adjacency st1 acc fuel

def detect_circular_dependencies (g : DependencyGraph) :
    List CircularDependency :=
  detect_loop g.nodes (build_adjacency g.edges [])
    { visited := [], rec_stack := [], path_stack := [] } [] (dfs_fuel g)

/-! ## dependency_analyzer.rs: calculate_module_coupling -/

/-- Rust `*map.entry(k).or_insert(0) += 1` on the association-list model. -/
def counter_bump (m : List (String × Nat)) (k : String) : List (String × Nat) :=
  match m with
  | [] => [(k, 1)]
  | (k', v) :: rest =>
    if k' == k then (k', v + 1) :: rest else (k', v) :: counter_bump rest k

/-- Rust `*map.get(k).unwrap_or(&0)`. -/
def counter_get (m : List (String × Nat)) (k : String) : Nat :=
  match m with
  | [] => 0
  | (k', v) :: rest => if k' == k then v else counter_get rest k

/-- The edge loop of calculate_module_coupling: afferent counts by edge
target, efferent counts by edge origin. -/
def coupling_counters : List DependencyEdge → List (String × Nat) →
    List (String × Nat) → (List (String × Nat)) × (List (String × Nat))
  | [], afferent, efferent => (afferent, efferent)
  | e :: rest, afferent, efferent =>
    coupling_counters rest (counter_bump afferent e.to_) (counter_bump efferent e.from_)

def coupling_entries : List DependencyNode → List (String × Nat) →
    List (String × Nat) → List ModuleCoupling
  | [], _, _ => []
  | n :: rest, afferent, efferent =>
    let afferent_coupling := counter_get afferent n.id
    let efferent_coupling := counter_get efferent n.id
    { module_name := n.id
      afferent_coupling := afferent_coupling
      efferent_coupling := efferent_coupling
      instability :=
        if afferent_coupling + efferent_coupling > 0 then
          (efferent_coupling : Rat) /
            ((afferent_coupling : Rat) + (efferent_coupling : Rat))
        else 0
      abstractness := 0 } :: coupling_entries rest afferent efferent

def calculate_module_coupling (g : DependencyGraph) : List ModuleCoupling :=
  let counters := coupling_counters g.edges [] []
  coupling_entries g.nodes counters.1 counters.2

/-! ## analyzers/mod.rs: data model of the aggregation stage

`ParsedFile` / `FunctionInfo` are the parser-output types this module
consumes; their fields are the ones the module reads (path and function
list; function name, complexity, start line, parameter count). -/

structure FunctionInfo where
  name : String
  complexity : Nat
  line_start : Nat
  parameters : Nat
deriving DecidableEq

structure ParsedFile where
  path : String
  functions : List FunctionInfo
deriving DecidableEq

structure HighComplexityFunction where
  name : String
  file_path : String
  complexity : Nat
  line_start : Nat
  parameters : Nat
deriving DecidableEq

structure LanguageStats where
  files : Nat
  functions : Nat
deriving DecidableEq

structure AnalysisConfig where
  min_complexity_threshold : Nat
  include_tests : Bool
  max_file_size : Nat
  excluded_paths : List String
  focus_languages : Option (List String)
deriving DecidableEq

def analysisConfigDefault : AnalysisConfig :=
  { min_complexity_threshold := 5
    include_tests := false
    max_file_size := 1024 * 1024
    excluded_paths := ["node_modules", "target", ".git", "dist", "build"]
    focus_languages := none }

structure AnalysisResults where
  files_analyzed : Nat
  total_lines : Nat
  total_functions : Nat
  average_complexity : Rat
  high_complexity_functions : List HighComplexityFunction
  language_breakdown : List (String × LanguageStats)
  complexity_distribution : List (Nat × Nat)
  errors : List String
deriving DecidableEq

def analysisResultsNew : AnalysisResults :=
  { files_analyzed := 0
    total_lines := 0
    total_functions := 0
    average_complexity := 0
    high_complexity_functions := []
    language_breakdown := []
    complexity_distribution := []
    errors := [] }

/-- AnalysisResults::detect_language: last `.`-separated segment of the path. -/
def detect_language (file_path : String) : String :=
  match (splitOnChar '.' file_path.data).getLast? with
  | some ext =>
    (match String.mk ext with
     | "rs" => "Rust"
     | "js" | "jsx" => "JavaScript"
     | "ts" | "tsx" => "TypeScript"
     | "py" => "Python"
     | "go" => "Go"
     | _ => "Unknown")
  | none => "Unknown"

def stats_bump_files (m : List (String × LanguageStats)) (k : String) :
    List (String × LanguageStats) :=
  match m with
  | [] => [(k, { files := 1, functions := 0 })]
  | (k', v) :: rest =>
    if k' == k then (k', { v with files := v.files + 1 }) :: rest
    else (k', v) :: stats_bump_files rest k

def stats_bump_functions (m : List (String × LanguageStats)) (k : String) :
    List (String × LanguageStats) :=
  match m with
  | [] => [(k, { files := 0, functions := 1 })]
  | (k', v) :: rest =>
    if k' == k then (k', { v with functions := v.functions + 1 }) :: rest
    else (k', v) :: stats_bump_functions rest k

def dist_bump (m : List (Nat × Nat)) (k : Nat) : List (Nat × Nat) :=
  match m with
  | [] => [(k, 1)]
  | (k', v) :: rest =>
    if k' == k then (k', v + 1) :: rest else (k', v) :: dist_bump rest k

/-- The per-function loop of AnalysisResults::add_file. -/
def add_functions (language file_path : String) :
    List FunctionInfo → AnalysisResults → AnalysisResults
  | [], st => st
  | f :: rest, st =>
    let st :=
      { st with
        total_functions := st.total_functions + 1
        language_breakdown := stats_bump_functions st.language_breakdown language
        complexity_distribution := dist_bump st.complexity_distribution f.complexity
        high_complexity_functions :=
          if f.complexity ≥ 10 then
            st.high_complexity_functions ++
              [{ name := f.name
                 file_path := file_path
                 complexity := f.complexity
                 line_start := f.line_start
                 parameters := f.parameters }]
          else st.high_complexity_functions }
    add_functions language file_path rest st

def add_file (st : AnalysisResults) (pf : ParsedFile) : AnalysisResults :=
  let st := { st with files_analyzed := st.files_analyzed + 1 }
  let language := detect_language pf.path
  let st := { st with language_breakdown := stats_bump_files st.language_breakdown language }
  add_functions language pf.path pf.functions st

/-- Stable insertion step for the descending-by-complexity sort: the new
element goes after every already-placed element of greater or equal
complexity, exactly the order `sort_by(|a, b| b.complexity.cmp(&a.complexity))`
(a stable sort) produces. -/
def insert_desc (x : HighComplexityFunction) :
    List HighComplexityFunction → List HighComplexityFunction
  | [] => [x]
  | y :: ys => if x.complexity < y.complexity then y :: insert_desc x ys
               else x :: y :: ys

/-- Stable sort of the high-complexity list by complexity descending.  Rust's
`sort_by` is stable and the comparator is a total preorder on the complexity
key, so its output is the unique complexity-descending, tie-order-preserving
permutation, which this insertion sort computes. -/
def sort_desc : List HighComplexityFunction → List HighComplexityFunction
  | [] => []
  | x :: xs => insert_desc x (sort_desc xs)

def finalize (st : AnalysisResults) : AnalysisResults :=
  let st :=
    if st.total_functions > 0 then
      let total_complexity : Nat :=
        st.complexity_distribution.foldl (fun acc p => acc + p.1 * p.2) 0
      { st with average_complexity :=
          (total_complexity : Rat) / (st.total_functions : Rat) }
    else st
  { st with high_complexity_functions := sort_desc st.high_complexity_functions }

def aggregate_step (st : AnalysisResults) (r : Except String ParsedFile) :
    AnalysisResults :=
  match r with
  | Except.ok pf => add_file st pf
  | Except.error e => { st with errors := st.errors ++ [e] }

def aggregate_results (rs : List (Except String ParsedFile)) : AnalysisResults :=
  finalize (rs.foldl aggregate_step analysisResultsNew)

/-! ## analyzers/mod.rs: discover_files

The file-system walk is modelled as a list of directory entries in walk
order; each entry carries the path, whether it is a regular file, and its
size in bytes. -/

structure FsEntry where
  path : String
  is_file : Bool
  size : Nat
deriving DecidableEq

def is_excluded_path (cfg : AnalysisConfig) (path : String) : Bool :=
  cfg.excluded_paths.any (fun ex => strContainsSub path ex)

def is_test_file (path : String) : Bool :=
  strContainsSub path "test" || strContainsSub path "spec" ||
  strEnds path "_test.rs" || strEnds path ".test.js" ||
  strEnds path "_spec.rb"

def is_supported_extension (extension : String) : Bool :=
  match extension with
  | "rs" | "js" | "ts" | "py" | "go" | "jsx" | "tsx" => true
  | _ => false

def path_file_name (p : String) : List Char :=
  (((splitOnChar '/' p.data).getLast?).getD p.data)

/-- Rust `Path::extension`: text after the last dot of the file name; `none`
when there is no dot or the only dot is the leading one of a hidden file. -/
def path_extension (p : String) : Option String :=
  match splitOnChar '.' (path_file_name p) with
  | [] => none
  | [_] => none
  | first :: rest =>
    if first = [] ∧ rest.length = 1 then none
    else (rest.getLast?).map String.mk

def discover_files (cfg : AnalysisConfig) : List FsEntry → List String
  | [] => []
  | e :: rest =>
    if !e.is_file then discover_files cfg rest
    else if e.size > cfg.max_file_size then discover_files cfg rest
    else if is_excluded_path cfg e.path then discover_files cfg rest
    else if !cfg.include_tests && is_test_file e.path then discover_files cfg rest
    else
      match path_extension e.path with
      | some ext =>
        if is_supported_extension ext then e.path :: discover_files cfg rest
        else discover_files cfg rest
      | none => discover_files cfg rest

/-- analyze_path without the progress bar and file reads: discovery followed
by per-file parsing and aggregation; `parse` stands for
`LanguageParser::parse_file` applied to the file's content. -/
def analyze_path (cfg : AnalysisConfig) (entries : List FsEntry)
    (parse : String → Except String ParsedFile) : AnalysisResults :=
  aggregate_results ((discover_files cfg entries).map parse)

/-! ## Concrete syntax trees

tree-sitter-rust parse trees written out node by node (kinds are the
grammar node kinds; keyword and punctuation tokens appear as anonymous
nodes, as a TreeCursor traversal sees them). -/

def lb : TS := tok "\x7b"

def rb : TS := tok "\x7d"

def blockNode (xs : List TS) : TS :=
  mkNode "block" "" ([lb] ++ xs ++ [rb])

def elseClause (b : TS) : TS :=
  mkNode "else_clause" "" [tok "else", b]

def ifExpr (cond : TS) (consequence : TS) (rest : List TS) : TS :=
  mkNode "if_expression" "" ([tok "if", cond, consequence] ++ rest)

def identNode (s : String) : TS := mkNode "identifier" s []

def intLit (s : String) : TS := mkNode "integer_literal" s []

def gtCmp (l r : TS) : TS :=
  mkNode "binary_expression" "" [l, tok ">", r]

/-- Parse tree of
`fn f(x: i32) -> i32 { if x > 0 { if x > 10 { x } else { 0 } } else { -x } }`
under the tree-sitter Rust grammar. -/
def scenario1_function : TS :=
  mkNode "function_item" ""
    [tok "fn",
     identNode "f",
     mkNode "parameters" ""
       [tok "(",
        mkNode "parameter" ""
          [identNode "x", tok ":", mkNode "primitive_type" "i32" []],
        tok ")"],
     tok "->",
     mkNode "primitive_type" "i32" [],
     blockNode
       [ifExpr (gtCmp (identNode "x") (intLit "0"))
          (blockNode
            [ifExpr (gtCmp (identNode "x") (intLit "10"))
               (blockNode [identNode "x"])
               [elseClause (blockNode [intLit "0"])]])
          [elseClause
             (blockNode
               [mkNode "unary_expression" "-x" [tok "-", identNode "x"]])]]]

/-- N uniformly nested bare `if` blocks (innermost body a literal). -/
def nested_ifs : Nat → TS
  | 0 => intLit "0"
  | n + 1 => ifExpr (identNode "c") (blockNode [nested_ifs n]) []

/-- Function `fn g()` whose block body is `nested_ifs n`. -/
def nested_if_function (n : Nat) : TS :=
  mkNode "function_item" ""
    [tok "fn",
     identNode "g",
     mkNode "parameters" "" [tok "(", tok ")"],
     blockNode [nested_ifs n]]

/-- A function with no decision or loop constructs at all. -/
def simple_function : TS :=
  mkNode "function_item" ""
    [tok "fn",
     identNode "simple",
     mkNode "parameters" "" [tok "(", tok ")"],
     blockNode
       [mkNode "call_expression" "println!(..)"
          [identNode "println", mkNode "arguments" "" []]]]

/-- Function whose body is `if a && b ...`: the condition holds one boolean
and-operator. -/
def if_with_logical_and : TS :=
  mkNode "function_item" ""
    [tok "fn",
     identNode "h",
     mkNode "parameters" "" [tok "(", tok ")"],
     blockNode
       [ifExpr
          (mkNode "binary_expression" "a && b"
            [identNode "a", tok "&&", identNode "b"])
          (blockNode [intLit "0"]) []]]

/-- Anonymous function node (no identifier child) whose body even calls a
function literally named `anonymous`. -/
def anonymous_function : TS :=
  mkNode "arrow_function" ""
    [mkNode "formal_parameters" "" [tok "(", tok ")"],
     blockNode
       [mkNode "call_expression" "anonymous()"
          [identNode "anonymous", mkNode "arguments" "" [tok "(", tok ")"]]]]

/-! ## Concrete dependency graphs and registries -/

def simple_node (id : String) : DependencyNode :=
  { id := id, file_path := id ++ ".rs", module_name := id, exports := [] }

def simple_edge (a b : String) : DependencyEdge :=
  { from_ := a, to_ := b, import_type := ImportType.Namespace,
    imported_symbols := [] }

def self_loop_graph : DependencyGraph :=
  { nodes := [simple_node "A"], edges := [simple_edge "A" "A"] }

def two_cycle_graph : DependencyGraph :=
  { nodes := [simple_node "a", simple_node "b"],
    edges := [simple_edge "a" "b", simple_edge "b" "a"] }

def three_cycle_graph : DependencyGraph :=
  { nodes := [simple_node "a", simple_node "b", simple_node "c"],
    edges := [simple_edge "a" "b", simple_edge "b" "c", simple_edge "c" "a"] }

/-- One Rust module `a` importing `crate::b` while no module `b` exists. -/
def dangling_registry : List (String × ModuleInfo) :=
  [("a",
    { file_path := "a.rs"
      module_name := "a"
      language := Language.Rust
      imports := [{ module_path := "crate::b", imported_names := [],
                    is_default := false, line := 1 }]
      exports := []
      external_dependencies := [] })]

/-! ## Concrete aggregation inputs -/

/-- Two functions of equal complexity in one file, later start line first. -/
def tie_file : ParsedFile :=
  { path := "m.rs"
    functions :=
      [{ name := "f_late", complexity := 12, line_start := 50, parameters := 0 },
       { name := "f_early", complexity := 12, line_start := 2, parameters := 0 }] }

def bin_entry : FsEntry := { path := "data.bin", is_file := true, size := 4 }

def failing_parse (p : String) : Except String ParsedFile :=
  Except.error (p ++ ": parse failure")

/-! ## Specification-side definitions used by the claims -/

/-- Number of nodes (of the whole chain: node, children, next siblings)
whose kind is one on which the source bumps the complexity counter. -/
def decision_count : TS → Nat
  | .nil => 0
  | .node k _ fc ns =>
    (if decision_kinds.contains k then 1 else 0) +
    decision_count fc + decision_count ns


/-- Bare if statement: keyword, condition, block around the body statement,
and no else clause. -/
def bare_if (cond inner : TS) : TS := ifExpr cond (blockNode [inner]) []

/-- Block whose children are a given sibling chain (braces included). -/
def block_of_chain (body : TS) : TS :=
  .node "block" "" (withSib lb (appendSib body rb)) .nil

/-- A function item whose block body holds the given statement chain. -/
def function_with_body (fname params : String) (body : TS) : TS :=
  mkNode "function_item" ""
    [tok "fn",
     identNode fname,
     mkNode "parameters" params [tok "(", tok ")"],
     block_of_chain body]


/-- Lexicographic order on character lists (strict). -/
def charsLt : List Char → List Char → Bool
  | _, [] => false
  | [], _ :: _ => true
  | a :: as, b :: bs =>
    if a < b then true else if b < a then false else charsLt as bs

/-- Lexicographic order on strings (strict). -/
def strLt (s t : String) : Bool := charsLt s.data t.data

/-- The ordering the claim asserts for the scorer's output: complexity
descending, ties broken by file path ascending, then by start line
ascending. -/
def claim_sorted : List HighComplexityFunction → Bool
  | [] => true
  | [_] => true
  | a :: b :: rest =>
    (decide (b.complexity < a.complexity) ||
     (b.complexity == a.complexity &&
      (strLt a.file_path b.file_path ||
       (a.file_path == b.file_path && decide (a.line_start ≤ b.line_start))))) &&
    claim_sorted (b :: rest)


/-! ## Helper lemmas: the complexity traversal as a node count -/

theorem traverse_node_eq_count : ∀ (t : TS) (c : Nat),
    traverse_node t c = c + decision_count t
  | .nil, c => rfl
  | .node k s fc ns, c => by
    simp only [traverse_node, decision_count]
    rw [traverse_node_eq_count fc, traverse_node_eq_count ns]
    split
    all_goals simp_all [decision_kinds]
    all_goals omega

theorem no_decision_count_zero : ∀ (t : TS),
    no_decision t = true → decision_count t = 0
  | .nil, _ => rfl
  | .node k s fc ns, h => by
    simp only [no_decision, Bool.and_eq_true, Bool.not_eq_true'] at h
    obtain ⟨⟨hk, hfc⟩, hns⟩ := h
    simp [decision_count, hk, no_decision_count_zero fc hfc,
      no_decision_count_zero ns hns]
    simpa using hk

theorem decision_count_appendSib : ∀ (t n : TS),
    decision_count (appendSib t n) = decision_count t + decision_count n
  | .nil, n => by simp [appendSib, decision_count]
  | .node k s fc ns, n => by
    simp [appendSib, decision_count, decision_count_appendSib ns n]
    omega

theorem decision_count_withSib (x rest : TS) :
    decision_count (withSib x rest) =
      decision_count (dropSib x) + decision_count rest := by
  cases x <;> simp [withSib, dropSib, decision_count]

theorem no_decision_dropSib (t : TS) (h : no_decision t = true) :
    decision_count (dropSib t) = 0 := by
  cases t with
  | nil => rfl
  | node k s fc ns =>
    simp only [no_decision, Bool.and_eq_true, Bool.not_eq_true'] at h
    obtain ⟨⟨hk, hfc⟩, _⟩ := h
    simp [dropSib, decision_count, hk, no_decision_count_zero fc hfc]
    simpa using hk

theorem decision_count_dropSib_eval (k t : String) (fc ns : TS) :
    decision_count (dropSib (TS.node k t fc ns)) =
      (if decision_kinds.contains k then 1 else 0) + decision_count fc := by
  simp [dropSib, decision_count]

theorem cyclomatic_as_count (t : TS) :
    calculate_cyclomatic_complexity t = 1 + decision_count (dropSib t) := by
  unfold calculate_cyclomatic_complexity
  rw [traverse_node_eq_count]

theorem basic_fold_ge : ∀ (ls : List String) (c : Nat),
    c ≤ ls.foldl (fun c l => c + line_complexity_points l) c
  | [], c => le_refl c
  | l :: ls, c =>
    le_trans (by omega) (basic_fold_ge ls (c + line_complexity_points l))

/-! ## Helper lemma: nesting depth of uniformly nested ifs -/

theorem nested_ifs_depth : ∀ (n cur mx : Nat),
    traverse_for_depth (nested_ifs (n + 1)) cur mx =
      Nat.max mx (cur + 2 * (n + 1))
  | 0, cur, mx => by
    have h : traverse_for_depth (nested_ifs 1) cur mx =
        Nat.max (Nat.max mx (cur + 1)) (cur + 2) := rfl
    rw [h]
    simp only [Nat.max_def]
    split_ifs <;> omega
  | n + 1, cur, mx => by
    have h : traverse_for_depth (nested_ifs (n + 1 + 1)) cur mx =
        traverse_for_depth (nested_ifs (n + 1)) (cur + 2)
          (Nat.max (Nat.max mx (cur + 1)) (cur + 2)) := rfl
    rw [h, nested_ifs_depth n]
    simp only [Nat.max_def]
    split_ifs <;> omega

/-! ## Claims C1, C2, C6, C7, C10 -/

/-- C1 (counterexample): on the parse tree of
`fn f(x: i32) -> i32 { if x > 0 { if x > 10 { x } else { 0 } } else { -x } }`
the extractor does not report complexity 3 and nesting depth 2 as the claim
states (each else clause and its `else` keyword token also bump the
complexity counter, and block nodes count as nesting levels). -/
theorem c1_counterexample :
    ¬(calculate_cyclomatic_complexity scenario1_function = 3 ∧
      calculate_nesting_depth scenario1_function = 2) := by decide

/-- C1 (amended): the scenario function is reported with cyclomatic
complexity 7 (base 1, two if_expression nodes, two else_clause nodes, two
`else` keyword tokens) and nesting depth 5 (the function body block, the
outer if and its block, the inner if and its block); a function with N
uniformly nested bare `if` blocks is reported with nesting depth 2N+1, not
N, because every if_expression and every block node opens a level. -/
theorem c1_amended :
    calculate_cyclomatic_complexity scenario1_function = 7 ∧
    calculate_nesting_depth scenario1_function = 5 ∧
    ∀ n : Nat, calculate_nesting_depth (nested_if_function n) = 2 * n + 1 := by
  refine ⟨by decide, by decide, ?_⟩
  intro n
  cases n with
  | zero => decide
  | succ m =>
    have h : calculate_nesting_depth (nested_if_function (m + 1)) =
        traverse_for_depth (nested_ifs (m + 1)) 1 1 := rfl
    rw [h, nested_ifs_depth]
    simp only [Nat.max_def]
    split_ifs <;> omega

/-- C2: every function's reported cyclomatic complexity is at least 1 (the
counter starts at 1 and is only ever incremented), it is exactly 1 when the
function tree holds no node of a decision or loop kind, and the line-based
fallback complexity of analyzer.rs is likewise at least 1. -/
theorem c2_baseline :
    (∀ t : TS, 1 ≤ calculate_cyclomatic_complexity t) ∧
    (∀ t : TS, no_decision t = true → calculate_cyclomatic_complexity t = 1) ∧
    (∀ content : String, 1 ≤ calculate_basic_complexity content) := by
  refine ⟨?_, ?_, ?_⟩
  · intro t
    rw [cyclomatic_as_count]
    omega
  · intro t h
    rw [cyclomatic_as_count, no_decision_dropSib t h]
  · intro content
    unfold calculate_basic_complexity
    exact basic_fold_ge _ 1

/-- C2 (witness): the baseline theorem applied to a concrete function with
no decision constructs and to a concrete one-line source text. -/
theorem c2_baseline_witness :
    1 ≤ calculate_cyclomatic_complexity simple_function ∧
    calculate_cyclomatic_complexity simple_function = 1 ∧
    1 ≤ calculate_basic_complexity "fn simple() 0" :=
  ⟨c2_baseline.1 simple_function,
   c2_baseline.2.1 simple_function (by decide),
   c2_baseline.2.2 "fn simple() 0"⟩

/-- C6 (counterexample): a function whose single `if` condition holds one
boolean `&&` operator is reported with complexity 2, not the 3 the claim
requires (1 base + 1 if + 1 for the `&&`): the source's binary_expression
arm is an empty no-op, so `&&` and `||` never add to the count. -/
theorem c6_counterexample :
    calculate_cyclomatic_complexity if_with_logical_and = 2 ∧
    calculate_cyclomatic_complexity if_with_logical_and ≠ 3 := by decide

/-- C6 (amended): a binary_expression node (the kind carrying `&&` and `||`)
contributes nothing of its own to the complexity traversal: the counter is
passed unchanged to the traversal of its children and siblings. -/
theorem c6_amended : ∀ (s : String) (fc ns : TS) (c : Nat),
    traverse_node (TS.node "binary_expression" s fc ns) c =
      traverse_node ns (traverse_node fc c) := by
  intro s fc ns c
  rfl

/-- C7: appending one bare `if` statement (condition and body free of
decision or loop constructs, no else clause) to a function's body increases
the reported cyclomatic complexity by exactly 1, for every body. -/
theorem c7_monotone : ∀ (fname params : String) (body cond inner : TS),
    no_decision cond = true → no_decision inner = true →
    calculate_cyclomatic_complexity
        (function_with_body fname params (appendSib body (bare_if cond inner)))
      = calculate_cyclomatic_complexity (function_with_body fname params body)
        + 1 := by
  intro fname params body cond inner hc hi
  rw [cyclomatic_as_count, cyclomatic_as_count]
  have hcond := no_decision_dropSib cond hc
  have hinner := no_decision_dropSib inner hi
  simp only [function_with_body, block_of_chain, bare_if, ifExpr, blockNode,
    mkNode, identNode, tok, lb, rb, sib, List.cons_append, List.nil_append]
  simp only [decision_count_dropSib_eval, decision_count,
    decision_count_withSib, decision_count_appendSib, hcond, hinner]
  simp [decision_kinds]
  omega

/-- C7 (witness): the monotonicity theorem applied to the empty body and a
concrete bare if statement. -/
theorem c7_witness :
    calculate_cyclomatic_complexity
        (function_with_body "g" ""
          (appendSib TS.nil (bare_if (identNode "c") (intLit "0"))))
      = calculate_cyclomatic_complexity (function_with_body "g" "" TS.nil)
        + 1 :=
  c7_monotone "g" "" TS.nil (identNode "c") (intLit "0") (by decide) (by decide)

/-- C10: a function whose name could not be extracted is reported under the
placeholder "anonymous", and is_recursive_function returns false for that
placeholder name before ever inspecting the body, so such a function is
never flagged recursive. -/
theorem c10_confirmed : ∀ (t : TS),
    is_recursive_function t "anonymous" = false ∧
    (extract_function_name t = none →
      is_recursive_function t ((extract_function_name t).getD "anonymous")
        = false) := by
  intro t
  refine ⟨rfl, ?_⟩
  intro h
  rw [h]
  rfl

/-- C10 (witness): the theorem applied to an anonymous arrow function whose
body even calls a function literally named `anonymous`. -/
theorem c10_witness :
    extract_function_name anonymous_function = none ∧
    is_recursive_function anonymous_function
      ((extract_function_name anonymous_function).getD "anonymous") = false :=
  ⟨by decide, (c10_confirmed anonymous_function).2 (by decide)⟩

/-! ## Helper lemmas: cycle severity -/

theorem detect_loop_severity : ∀ (nodes : List DependencyNode)
    (adjacency : List (String × List String)) (st : DfsState)
    (acc : List CircularDependency) (fuel : Nat),
    (∀ cd ∈ acc, cd.severity = cycle_severity cd.cycle.length) →
    ∀ cd ∈ detect_loop nodes adjacency st acc fuel,
      cd.severity = cycle_severity cd.cycle.length
  | [], _, _, acc, _, h => by simpa [detect_loop] using h
  | n :: rest, adj, st, acc, fuel, h => by
    simp only [detect_loop]
    split
    · exact detect_loop_severity rest adj st acc fuel h
    · split
      next cycle st1 heq =>
        refine detect_loop_severity rest adj st1 _ fuel ?_
        intro cd hcd
        rcases List.mem_append.mp hcd with h1 | h2
        · exact h cd h1
        · rw [List.mem_singleton] at h2
          subst h2
          rfl
      next st1 heq =>
        exact detect_loop_severity rest adj st1 acc fuel h

/-! ## Claim C3 -/

/-- C3 (counterexample): on the graph of two modules importing each other
(a two-module cycle, 2 distinct modules) the analyzer reports the single
cycle [a, b, a] with severity Medium, not the Low the claim requires: the
reported cycle vector repeats the start node, so its length is 3. -/
theorem c3_counterexample :
    detect_circular_dependencies two_cycle_graph =
      [{ cycle := ["a", "b", "a"], severity := CycleSeverity.Medium }] ∧
    CycleSeverity.Medium ≠ CycleSeverity.Low := by decide

/-- C3 (amended): the severity of every reported CircularDependency is
derived from the length of the reported cycle vector, which closes the
cycle by repeating the start node (so a cycle through d distinct modules
has vector length d+1): Low for length at most 2 (only a self-import),
Medium for 3 to 4 (two- or three-module cycles), High for 5 or more.
Concretely: a self-import A with cycle [A, A] gets Low, the two-module
cycle a to b to a gets [a, b, a] and Medium, a three-module cycle gets
[a, b, c, a] and Medium. -/
theorem c3_amended :
    (∀ (g : DependencyGraph) (cd : CircularDependency),
      cd ∈ detect_circular_dependencies g →
      cd.severity = cycle_severity cd.cycle.length) ∧
    detect_circular_dependencies self_loop_graph =
      [{ cycle := ["A", "A"], severity := CycleSeverity.Low }] ∧
    detect_circular_dependencies two_cycle_graph =
      [{ cycle := ["a", "b", "a"], severity := CycleSeverity.Medium }] ∧
    detect_circular_dependencies three_cycle_graph =
      [{ cycle := ["a", "b", "c", "a"], severity := CycleSeverity.Medium }] := by
  refine ⟨?_, by decide, by decide, by decide⟩
  intro g cd hcd
  exact detect_loop_severity _ _ _ _ _ (by simp) cd hcd

/-- C3 (witness): the amended severity rule applied to the self-import
graph, whose reported cycle [A, A] has length 2 and severity Low. -/
theorem c3_witness :
    ({ cycle := ["A", "A"], severity := CycleSeverity.Low } :
        CircularDependency).severity =
      cycle_severity (["A", "A"] : List String).length :=
  c3_amended.1 self_loop_graph _ (by decide)

/-! ## Helper lemmas: graph builder membership -/

theorem edges_for_module_mem : ∀ (name : String) (lang : Language)
    (imps : List ImportInfo) (e : DependencyEdge),
    e ∈ edges_for_module name lang imps ↔
      ∃ imp ∈ imps,
        is_external_dependency imp.module_path lang = false ∧
        e = { from_ := name, to_ := imp.module_path,
              import_type :=
                if imp.is_default then ImportType.Default
                else if imp.imported_names = [] then ImportType.Namespace
                else ImportType.Named,
              imported_symbols := imp.imported_names }
  | name, lang, [], e => by simp [edges_for_module]
  | name, lang, imp :: rest, e => by
    by_cases hx : is_external_dependency imp.module_path lang
    · have hstep : edges_for_module name lang (imp :: rest) =
          edges_for_module name lang rest := by
        simp [edges_for_module, resolve_import_to_module, hx]
      rw [hstep, edges_for_module_mem name lang rest e]
      constructor
      · rintro ⟨i, hi, hext, he⟩
        exact ⟨i, List.mem_cons_of_mem _ hi, hext, he⟩
      · rintro ⟨i, hi, hext, he⟩
        rcases List.mem_cons.mp hi with rfl | hi'
        · simp [hx] at hext
        · exact ⟨i, hi', hext, he⟩
    · have hx' : is_external_dependency imp.module_path lang = false := by
        simpa using hx
      have hstep : edges_for_module name lang (imp :: rest) =
          { from_ := name, to_ := imp.module_path,
            import_type :=
              if imp.is_default then ImportType.Default
              else if imp.imported_names = [] then ImportType.Namespace
              else ImportType.Named,
            imported_symbols := imp.imported_names } ::
            edges_for_module name lang rest := by
        simp [edges_for_module, resolve_import_to_module, hx']
      rw [hstep]
      simp only [List.mem_cons, edges_for_module_mem name lang rest e]
      constructor
      · rintro (rfl | ⟨i, hi, hext, he⟩)
        · exact ⟨imp, Or.inl rfl, hx', rfl⟩
        · exact ⟨i, Or.inr hi, hext, he⟩
      · rintro ⟨i, rfl | hi', hext, he⟩
        · exact Or.inl he
        · exact Or.inr ⟨i, hi', hext, he⟩

theorem registry_nodes_eq : ∀ (reg : List (String × ModuleInfo)),
    registry_nodes reg = reg.map (fun m =>
      { id := m.1, file_path := m.2.file_path, module_name := m.1,
        exports := m.2.exports.map (fun ex => ex.name) })
  | [] => rfl
  | (n, mi) :: rest => by
    simp [registry_nodes, registry_nodes_eq rest]

theorem registry_edges_mem : ∀ (reg : List (String × ModuleInfo))
    (e : DependencyEdge),
    e ∈ registry_edges reg ↔
      ∃ m ∈ reg, e ∈ edges_for_module m.1 m.2.language m.2.imports
  | [], e => by simp [registry_edges]
  | (n, mi) :: rest, e => by
    simp only [registry_edges, List.mem_append,
      registry_edges_mem rest e, List.mem_cons]
    constructor
    · rintro (h | ⟨m, hm, he⟩)
      · exact ⟨(n, mi), Or.inl rfl, h⟩
      · exact ⟨m, Or.inr hm, he⟩
    · rintro ⟨m, rfl | hm, he⟩
      · exact Or.inl he
      · exact Or.inr ⟨m, hm, he⟩

/-! ## Claim C4 -/

/-- C4 (counterexample): from a registry holding one Rust module `a` that
imports `crate::b` while no module of that id exists, the builder produces
an edge from `a` to `crate::b` although `crate::b` is not among the node
ids: a dangling edge, which the claim rules out. -/
theorem c4_counterexample :
    ∃ e ∈ (build_dependency_graph dangling_registry).edges,
      ∀ n ∈ (build_dependency_graph dangling_registry).nodes,
        n.id ≠ e.to_ := by decide

/-- C4 (amended): the builder creates one node per registry entry, and one
edge per import that is classified internal by the lexical rule, with `to`
equal to the raw import path whether or not a node of that id exists (the
resolver never consults the node set, so such edges may dangle); imports
classified external produce no edge. -/
theorem c4_amended : ∀ (registry : List (String × ModuleInfo)),
    (build_dependency_graph registry).nodes =
      registry.map (fun m =>
        { id := m.1, file_path := m.2.file_path, module_name := m.1,
          exports := m.2.exports.map (fun ex => ex.name) }) ∧
    (∀ e : DependencyEdge,
      e ∈ (build_dependency_graph registry).edges ↔
        ∃ m ∈ registry, ∃ imp ∈ m.2.imports,
          is_external_dependency imp.module_path m.2.language = false ∧
          e = { from_ := m.1, to_ := imp.module_path,
                import_type :=
                  if imp.is_default then ImportType.Default
                  else if imp.imported_names = [] then ImportType.Namespace
                  else ImportType.Named,
                imported_symbols := imp.imported_names }) := by
  intro registry
  refine ⟨registry_nodes_eq registry, ?_⟩
  intro e
  show e ∈ registry_edges registry ↔ _
  rw [registry_edges_mem]
  constructor
  · rintro ⟨m, hm, he⟩
    rw [edges_for_module_mem] at he
    obtain ⟨imp, hi, hext, he⟩ := he
    exact ⟨m, hm, imp, hi, hext, he⟩
  · rintro ⟨m, hm, imp, hi, hext, he⟩
    exact ⟨m, hm, (edges_for_module_mem _ _ _ _).mpr ⟨imp, hi, hext, he⟩⟩

/-- C4 (witness): the amended theorem instantiated on the dangling
registry, producing the concrete (dangling) edge from `a` to `crate::b`. -/
theorem c4_witness :
    ({ from_ := "a", to_ := "crate::b", import_type := ImportType.Namespace,
       imported_symbols := [] } : DependencyEdge)
      ∈ (build_dependency_graph dangling_registry).edges :=
  ((c4_amended dangling_registry).2 _).mpr (by decide)

/-! ## Helper lemmas: coupling counters -/

theorem counter_get_bump : ∀ (m : List (String × Nat)) (kb k : String),
    counter_get (counter_bump m kb) k =
      counter_get m k + (if kb == k then 1 else 0)
  | [], kb, k => by
    by_cases h : kb == k <;> simp [counter_bump, counter_get, h]
  | (a, v) :: rest, kb, k => by
    by_cases hab : a = kb
    · subst hab
      by_cases hk : a = k
      · subst hk
        simp [counter_bump, counter_get]
      · simp [counter_bump, counter_get, hk]
    · by_cases hk : a = k
      · subst hk
        have hbk : kb ≠ a := fun h => hab h.symm
        simp [counter_bump, counter_get, hab, hbk]
      · simp [counter_bump, counter_get, hab, hk, counter_get_bump rest kb k]

theorem coupling_fst : ∀ (edges : List DependencyEdge)
    (aff eff : List (String × Nat)) (k : String),
    counter_get (coupling_counters edges aff eff).1 k =
      counter_get aff k + (edges.filter (fun e => e.to_ == k)).length
  | [], aff, eff, k => by simp [coupling_counters]
  | e :: rest, aff, eff, k => by
    simp only [coupling_counters, coupling_fst rest _ _ k, counter_get_bump,
      List.filter_cons]
    by_cases h : e.to_ == k <;> simp [h]
    omega

theorem coupling_snd : ∀ (edges : List DependencyEdge)
    (aff eff : List (String × Nat)) (k : String),
    counter_get (coupling_counters edges aff eff).2 k =
      counter_get eff k + (edges.filter (fun e => e.from_ == k)).length
  | [], aff, eff, k => by simp [coupling_counters]
  | e :: rest, aff, eff, k => by
    simp only [coupling_counters, coupling_snd rest _ _ k, counter_get_bump,
      List.filter_cons]
    by_cases h : e.from_ == k <;> simp [h]
    omega

theorem coupling_entries_eq : ∀ (nodes : List DependencyNode)
    (aff eff : List (String × Nat)),
    coupling_entries nodes aff eff = nodes.map (fun n =>
      { module_name := n.id,
        afferent_coupling := counter_get aff n.id,
        efferent_coupling := counter_get eff n.id,
        instability :=
          if counter_get aff n.id + counter_get eff n.id > 0 then
            (counter_get eff n.id : Rat) /
              ((counter_get aff n.id : Rat) + (counter_get eff n.id : Rat))
          else 0,
        abstractness := 0 })
  | [], _, _ => rfl
  | n :: rest, aff, eff => by
    simp [coupling_entries, coupling_entries_eq rest aff eff]

/-! ## Claim C5 -/

/-- C5: for every module node, the coupling analyzer reports afferent
coupling equal to the number of edges whose target is the module, efferent
coupling equal to the number of edges whose origin is the module, and
instability equal to efferent / (afferent + efferent) with 0 when both
counts are zero (f64 division modelled as exact rational division). -/
theorem c5_coupling : ∀ (g : DependencyGraph),
    calculate_module_coupling g = g.nodes.map (fun n =>
      { module_name := n.id,
        afferent_coupling := (g.edges.filter (fun e => e.to_ == n.id)).length,
        efferent_coupling := (g.edges.filter (fun e => e.from_ == n.id)).length,
        instability :=
          if (g.edges.filter (fun e => e.to_ == n.id)).length
              + (g.edges.filter (fun e => e.from_ == n.id)).length > 0 then
            ((g.edges.filter (fun e => e.from_ == n.id)).length : Rat) /
              (((g.edges.filter (fun e => e.to_ == n.id)).length : Rat) +
                ((g.edges.filter (fun e => e.from_ == n.id)).length : Rat))
          else 0,
        abstractness := 0 }) := by
  intro g
  show coupling_entries g.nodes (coupling_counters g.edges [] []).1
      (coupling_counters g.edges [] []).2 = _
  rw [coupling_entries_eq]
  congr 1
  funext n
  have h1 := coupling_fst g.edges [] [] n.id
  have h2 := coupling_snd g.edges [] [] n.id
  simp only [counter_get, Nat.zero_add] at h1 h2
  rw [h1, h2]

/-! ## Helper lemmas: the stable descending sort of finalize -/

theorem insert_desc_mem : ∀ (x : HighComplexityFunction)
    (l : List HighComplexityFunction) (z : HighComplexityFunction),
    z ∈ insert_desc x l → z = x ∨ z ∈ l
  | x, [], z => by simp [insert_desc]
  | x, y :: ys, z => by
    simp only [insert_desc]
    split
    · intro hz
      rcases List.mem_cons.mp hz with rfl | hz'
      · exact Or.inr (List.mem_cons_self _ _)
      · rcases insert_desc_mem x ys z hz' with rfl | h
        · exact Or.inl rfl
        · exact Or.inr (List.mem_cons_of_mem _ h)
    · intro hz
      rcases List.mem_cons.mp hz with rfl | hz'
      · exact Or.inl rfl
      · exact Or.inr hz'

theorem insert_desc_pairwise : ∀ (x : HighComplexityFunction)
    (l : List HighComplexityFunction),
    List.Pairwise (fun a b => b.complexity ≤ a.complexity) l →
    List.Pairwise (fun a b => b.complexity ≤ a.complexity) (insert_desc x l)
  | x, [], _ => by simp [insert_desc]
  | x, y :: ys, h => by
    obtain ⟨hy, hys⟩ := List.pairwise_cons.mp h
    simp only [insert_desc]
    split
    next hlt =>
      refine List.pairwise_cons.mpr ⟨?_, insert_desc_pairwise x ys hys⟩
      intro z hz
      rcases insert_desc_mem x ys z hz with rfl | hz'
      · omega
      · exact hy z hz'
    next hge =>
      refine List.pairwise_cons.mpr ⟨?_, h⟩
      intro z hz
      rcases List.mem_cons.mp hz with rfl | hz'
      · omega
      · have := hy z hz'
        omega

theorem sort_desc_pairwise : ∀ (l : List HighComplexityFunction),
    List.Pairwise (fun a b => b.complexity ≤ a.complexity) (sort_desc l)
  | [] => List.Pairwise.nil
  | x :: xs => insert_desc_pairwise x (sort_desc xs) (sort_desc_pairwise xs)

theorem finalize_high (st : AnalysisResults) :
    (finalize st).high_complexity_functions =
      sort_desc st.high_complexity_functions := by
  unfold finalize
  split <;> rfl

/-! ## Claim C8 -/

/-- C8 (counterexample): two functions of equal complexity in one file,
the one with the later start line first in the input, come out of the
aggregator in input order (later line first), violating the claimed
line-number tie-break; the sort orders by complexity descending only. -/
theorem c8_counterexample :
    claim_sorted
        ((aggregate_results [Except.ok tie_file]).high_complexity_functions)
      = false ∧
    (aggregate_results [Except.ok tie_file]).high_complexity_functions =
      [{ name := "f_late", file_path := "m.rs", complexity := 12,
         line_start := 50, parameters := 0 },
       { name := "f_early", file_path := "m.rs", complexity := 12,
         line_start := 2, parameters := 0 }] := by decide

/-- C8 (amended): the aggregate scorer returns the high-complexity records
sorted by complexity descending only; ties keep their insertion order (the
sort is stable) and no file-path or line-number tie-break is applied. -/
theorem c8_amended : ∀ (rs : List (Except String ParsedFile)),
    List.Pairwise (fun a b => b.complexity ≤ a.complexity)
      ((aggregate_results rs).high_complexity_functions) := by
  intro rs
  unfold aggregate_results
  rw [finalize_high]
  exact sort_desc_pairwise _

/-! ## Helper lemma: discovery only keeps supported extensions -/

theorem discover_files_supported : ∀ (cfg : AnalysisConfig)
    (entries : List FsEntry) (p : String),
    p ∈ discover_files cfg entries →
    ∃ ext, path_extension p = some ext ∧ is_supported_extension ext = true
  | cfg, [], p, hp => by simp [discover_files] at hp
  | cfg, e :: rest, p, hp => by
    simp only [discover_files] at hp
    split at hp
    · exact discover_files_supported cfg rest p hp
    · split at hp
      · exact discover_files_supported cfg rest p hp
      · split at hp
        · exact discover_files_supported cfg rest p hp
        · split at hp
          · exact discover_files_supported cfg rest p hp
          · split at hp
            next ext heq =>
              split at hp
              next hsup =>
                rcases List.mem_cons.mp hp with rfl | hp'
                · exact ⟨ext, heq, hsup⟩
                · exact discover_files_supported cfg rest p hp'
              next => exact discover_files_supported cfg rest p hp
            next => exact discover_files_supported cfg rest p hp

/-! ## Claim C9 -/

/-- C9 (counterexample): running the pipeline on the single file `data.bin`
(unsupported extension) yields no records, no files_analyzed count, no
language-breakdown entry - and an empty error list: contrary to the claim,
no soft-error entry is recorded for the skipped file. -/
theorem c9_counterexample :
    (analyze_path analysisConfigDefault [bin_entry] failing_parse).errors
      = [] ∧
    (analyze_path analysisConfigDefault [bin_entry] failing_parse).files_analyzed
      = 0 ∧
    (analyze_path analysisConfigDefault [bin_entry] failing_parse).language_breakdown
      = [] ∧
    (analyze_path analysisConfigDefault [bin_entry] failing_parse).total_functions
      = 0 := by decide

/-- C9 (amended): a file whose extension maps to no supported language is
silently dropped during discovery (every discovered path has a supported
extension), so it produces no records and contributes to no counts, and no
entry for it appears in the error list - the pipeline on `data.bin` alone
returns empty results with an empty error list. -/
theorem c9_amended :
    (∀ (cfg : AnalysisConfig) (entries : List FsEntry) (p : String),
      p ∈ discover_files cfg entries →
      ∃ ext, path_extension p = some ext ∧ is_supported_extension ext = true) ∧
    ((analyze_path analysisConfigDefault [bin_entry] failing_parse).files_analyzed
        = 0 ∧
     (analyze_path analysisConfigDefault [bin_entry] failing_parse).language_breakdown
        = [] ∧
     (analyze_path analysisConfigDefault [bin_entry] failing_parse).total_functions
        = 0 ∧
     (analyze_path analysisConfigDefault [bin_entry] failing_parse).errors
        = []) :=
  ⟨discover_files_supported, by decide⟩

/-- C9 (witness): the amended theorem applied to a concrete discovered
file: `a.rs` is discovered and indeed carries the supported extension rs. -/
theorem c9_witness :
    ∃ ext, path_extension "a.rs" = some ext ∧
      is_supported_extension ext = true :=
  c9_amended.1 analysisConfigDefault
    [{ path := "a.rs", is_file := true, size := 4 }] "a.rs" (by decide)

end CodeAnalysis
